import Mathlib

/-!
Verification development for the fastslide Region Cache & Pyramidal Access
Layer.  The repository ships only its Python test suites; the backend that
implements `CacheManager`, `RuntimeGlobalCacheManager`, `FastSlide` and the
associated-image table is not part of the sources.  Every definition below is
therefore modelled from the design specification (spec.md) and the behaviour
pinned by the test suites, as a shallow embedding: stateful operations pass
the state explicitly, fallible operations return `Except`, Python floats are
modelled as rationals, and byte buffers as lists of naturals.
-/

/-- Modelled from the spec: a decoded region buffer, raw RGB bytes (8-bit per
channel).  Missing from src: the pyramidal decoder backend. -/
abbrev Buffer := List Nat

/-- Modelled from the spec: deterministic cache key computed by `read_region`
from (session identity, level, origin, size).  Missing from src: the
`read_region` backend. -/
structure RegionKey where
  slideId : Nat
  level : Nat
  ox : Int
  oy : Int
  w : Int
  h : Int
deriving DecidableEq

/-- Modelled from the spec (section 7): cache error kinds.  `invalidCapacity`
is the domain validation error carrying the observed message;
`invalidArgumentType` is the distinct lower-level type check (a `TypeError`
at the outer boundary) raised for negative capacities.  Missing from src:
the cache backend. -/
inductive CacheErr where
  | invalidCapacity (msg : String)
  | invalidArgumentType
deriving DecidableEq

/-- Modelled from the spec (section 3): the `BoundedCache` / `CacheManager`
data model: capacity, entries in most-recently-used-first order, cumulative
hit and miss counters, bounded recent-key sequence and key access
frequencies.  Missing from src: the cache backend. -/
structure CacheManager where
  capacity : Nat
  entries : List (RegionKey × Buffer)
  hits : Nat
  misses : Nat
  recentKeys : List RegionKey
  keyFrequencies : List (RegionKey × Nat)

/-- Modelled from the spec (section 4.1): `create(capacity)`.  A negative
capacity fails the earlier lower-level type check (`InvalidArgumentType`);
a zero capacity fails domain validation (`InvalidCapacity` with the message
observed by the tests); a positive capacity yields an empty cache with zero
counters.  Missing from src: the cache backend. -/
def CacheManager.create (capacity : Int) : Except CacheErr CacheManager :=
  if capacity < 0 then
    .error .invalidArgumentType
  else if capacity ≤ 0 then
    .error (.invalidCapacity "Cache capacity must be greater than 0")
  else
    .ok { capacity := capacity.toNat, entries := [], hits := 0, misses := 0,
          recentKeys := [], keyFrequencies := [] }

/-- Modelled from the spec: `create()` with the capacity argument omitted
uses the default capacity 1000.  Missing from src: the cache backend. -/
def CacheManager.createDefault : Except CacheErr CacheManager :=
  CacheManager.create 1000

/-- Modelled from the spec (section 4.1): `resize(new_capacity)` validates
like `create` and, when shrinking, evicts least-recently-used entries (the
tail of the recency-ordered entry list) until the size fits.  Missing from
src: the cache backend. -/
def CacheManager.resize (c : CacheManager) (newCapacity : Int) :
    Except CacheErr CacheManager :=
  if newCapacity < 0 then
    .error .invalidArgumentType
  else if newCapacity ≤ 0 then
    .error (.invalidCapacity "Cache capacity must be greater than 0")
  else
    .ok { c with capacity := newCapacity.toNat,
                 entries := c.entries.take newCapacity.toNat }

/-- Modelled from the spec (section 4.1): `clear()` empties entries,
recent keys and key frequencies but keeps the cumulative hit and miss
counters.  Missing from src: the cache backend. -/
def CacheManager.clear (c : CacheManager) : CacheManager :=
  { c with entries := [], recentKeys := [], keyFrequencies := [] }

/-- Modelled from the spec: bump the access count of a key in the
key-frequency map.  Missing from src: the cache backend. -/
def bumpFreq (l : List (RegionKey × Nat)) (k : RegionKey) :
    List (RegionKey × Nat) :=
  match l.find? (fun e => decide (e.1 = k)) with
  | some e => l.map (fun x => if x.1 = k then (k, e.2 + 1) else x)
  | none => (k, 1) :: l

/-- Modelled from the spec (section 4.1): `get(key)` returns the cached
value, increments `hits` and the key frequency and marks the key most
recently used; on absence it increments `misses` and returns none.
Missing from src: the cache backend. -/
def CacheManager.get (c : CacheManager) (k : RegionKey) :
    Option Buffer × CacheManager :=
  match c.entries.find? (fun e => decide (e.1 = k)) with
  | some e =>
    (some e.2,
     { c with hits := c.hits + 1,
              entries := (k, e.2) :: c.entries.eraseP (fun x => decide (x.1 = k)),
              recentKeys := k :: c.recentKeys,
              keyFrequencies := bumpFreq c.keyFrequencies k })
  | none => (none, { c with misses := c.misses + 1 })

/-- Modelled from the spec (section 4.1): `put(key, value)` inserts or
overwrites at the most-recently-used position and evicts from the
least-recently-used end until the size is at most the capacity.  Missing
from src: the cache backend. -/
def CacheManager.put (c : CacheManager) (k : RegionKey) (v : Buffer) :
    CacheManager :=
  let kept := ((k, v) :: c.entries.eraseP (fun x => decide (x.1 = k))).take c.capacity
  { c with entries := kept,
           recentKeys := k :: c.recentKeys,
           keyFrequencies := bumpFreq c.keyFrequencies k }

/-- Modelled from the spec (section 4.1): the basic statistics snapshot. -/
structure BasicStats where
  capacity : Nat
  size : Nat
  hits : Nat
  misses : Nat
  hit_ratio : ℚ
deriving DecidableEq

/-- Modelled from the spec (section 4.1): `get_basic_stats()`; the hit ratio
is `hits / (hits + misses)` when any lookup happened and `0.0` otherwise.
Missing from src: the cache backend. -/
def CacheManager.get_basic_stats (c : CacheManager) : BasicStats :=
  { capacity := c.capacity, size := c.entries.length,
    hits := c.hits, misses := c.misses,
    hit_ratio := if c.hits + c.misses = 0 then 0
                 else (c.hits : ℚ) / ((c.hits : ℚ) + (c.misses : ℚ)) }

/-- Modelled from the spec (section 4.1): the detailed statistics snapshot,
a superset of the basic one adding a non-negative estimated memory footprint,
the recent keys and the key frequencies. -/
structure DetailedStats where
  capacity : Nat
  size : Nat
  hits : Nat
  misses : Nat
  hit_ratio : ℚ
  memory_usage_mb : ℚ
  recent_keys : List RegionKey
  key_frequencies : List (RegionKey × Nat)

/-- Modelled from the spec (section 4.1): `get_detailed_stats()`. -/
def CacheManager.get_detailed_stats (c : CacheManager) : DetailedStats :=
  { capacity := c.capacity, size := c.entries.length,
    hits := c.hits, misses := c.misses,
    hit_ratio := if c.hits + c.misses = 0 then 0
                 else (c.hits : ℚ) / ((c.hits : ℚ) + (c.misses : ℚ)),
    memory_usage_mb := ((c.entries.map (fun e => e.2.length)).sum : ℚ) / 1048576,
    recent_keys := c.recentKeys.take 10,
    key_frequencies := c.keyFrequencies }

/-- Modelled from the spec (section 4.2): the process-wide
`RuntimeGlobalCacheManager`, embedded as the state of its single underlying
`CacheManager` (first-access initialization and object identity are runtime
concerns outside the shallow embedding; every operation delegates).
Missing from src: the cache backend. -/
structure RuntimeGlobalCacheManager where
  cache : CacheManager

/-- Modelled from the spec (section 4.2): the global instance as first
created, default capacity 1000. -/
def RuntimeGlobalCacheManager.init : RuntimeGlobalCacheManager :=
  ⟨{ capacity := 1000, entries := [], hits := 0, misses := 0,
     recentKeys := [], keyFrequencies := [] }⟩

/-- Modelled from the spec (section 4.2): `set_capacity` delegates to the
underlying cache's `resize`, with the same validation pipeline. -/
def RuntimeGlobalCacheManager.set_capacity (g : RuntimeGlobalCacheManager)
    (capacity : Int) : Except CacheErr RuntimeGlobalCacheManager :=
  match g.cache.resize capacity with
  | .ok c2 => .ok ⟨c2⟩
  | .error e => .error e

/-- Modelled from the spec (section 3): the pyramid geometry derived at open
time: per-level `(width, height)` dimensions and per-level downsample
factors (index-aligned, index 0 is full resolution).  Missing from src: the
pyramidal reader backend. -/
structure Geometry where
  levelDims : List (Nat × Nat)
  levelDownsamples : List ℚ

/-- Modelled from the spec (section 3): `level_count`, the number of pyramid
levels. -/
def Geometry.level_count (g : Geometry) : Nat :=
  g.levelDims.length

/-- Modelled from the spec (section 3): the geometry invariants: both
sequences have exactly `level_count` entries, there is at least one level,
`level_downsamples[0] = 1.0`, downsamples are positive and non-decreasing,
and every level has positive width and height. -/
def Geometry.Valid (g : Geometry) : Prop :=
  g.levelDownsamples.length = g.levelDims.length ∧
  1 ≤ g.levelDims.length ∧
  g.levelDownsamples.getD 0 1 = 1 ∧
  g.levelDownsamples.Pairwise (· ≤ ·) ∧
  (∀ d ∈ g.levelDownsamples, 0 < d) ∧
  (∀ p ∈ g.levelDims, 0 < p.1 ∧ 0 < p.2)

instance (g : Geometry) : Decidable g.Valid := by
  unfold Geometry.Valid; infer_instance

/-- Modelled from the spec (section 4.4): the lazily-populated table of
associated (non-pyramidal) images: the set of names and their metadata
dimensions are available without decoding, `loaded` memoizes decoded
images, and the external metadata/decoder collaborator is embedded as the
pure function `decodeImg`.  Missing from src: the associated-image backend. -/
structure AssociatedImageTable where
  names : List String
  dims : List (String × (Nat × Nat))
  decodeImg : String → Buffer
  loaded : List (String × Buffer)

/-- Modelled from the spec (section 4.4): `keys()` returns the available
names without decoding; it never consults `loaded`. -/
def AssociatedImageTable.keys (t : AssociatedImageTable) : List String :=
  t.names

/-- Modelled from the spec (section 4.4): the membership test checks the
name set only and never decodes. -/
def AssociatedImageTable.containsName (t : AssociatedImageTable)
    (n : String) : Bool :=
  decide (n ∈ t.names)

/-- Modelled from the spec (section 7): error kinds of the slide session. -/
inductive SlideErr where
  | closed
  | invalidLevel
  | invalidSize
  | outOfBounds
  | notFound
deriving DecidableEq

/-- Modelled from the spec (section 4.4): `get_dimensions(name)` reads the
per-name dimensions from metadata without decoding; it fails with
`NotFound` for an unknown name and never consults `loaded`. -/
def AssociatedImageTable.get_dimensions (t : AssociatedImageTable)
    (n : String) : Except SlideErr (Nat × Nat) :=
  if n ∈ t.names then
    match t.dims.find? (fun e => decide (e.1 = n)) with
    | some e => .ok e.2
    | none => .error .notFound
  else .error .notFound

/-- Modelled from the spec (section 4.4): `get_cache_size()` is the number
of decoded-and-memoized images. -/
def AssociatedImageTable.get_cache_size (t : AssociatedImageTable) : Nat :=
  t.loaded.length

/-- Modelled from the spec (section 4.4): indexed access `table[name]`
fails with `NotFound` for an unknown name, returns the memoized image when
present, and otherwise decodes once via the external decoder and memoizes
the result. -/
def AssociatedImageTable.getItem (t : AssociatedImageTable) (n : String) :
    Except SlideErr Buffer × AssociatedImageTable :=
  if n ∈ t.names then
    match t.loaded.find? (fun e => decide (e.1 = n)) with
    | some e => (.ok e.2, t)
    | none =>
      let img := t.decodeImg n
      (.ok img, { t with loaded := (n, img) :: t.loaded })
  else (.error .notFound, t)

/-- Modelled from the spec (section 4.4): `clear_cache()` empties `loaded`
but keeps the name set. -/
def AssociatedImageTable.clear_cache (t : AssociatedImageTable) :
    AssociatedImageTable :=
  { t with loaded := [] }

/-- Modelled from the spec (sections 3 and 4.5): the stateful slide session
(`FastSlide` handle): source path, monotone closed flag, format descriptor,
property table, pyramid geometry, the external pyramid decoder embedded
as a deterministic per-pixel RGB source, an optional attached cache and the
associated-image table.  `id` is the session identity entering cache keys.
Missing from src: the slide reader backend. -/
structure Session where
  id : Nat
  sourcePath : String
  format : String
  closed : Bool
  geom : Geometry
  props : List (String × String)
  sample : Nat → Int → Int → Nat × Nat × Nat
  cache : Option CacheManager
  assoc : AssociatedImageTable

/-- Modelled from the spec (section 3): `close()` marks the session closed;
it is idempotent and never fails. -/
def Session.close (s : Session) : Session :=
  { s with closed := true }

/-- Modelled from the spec (section 3): `dimensions` (level-0 size); fails
when the session is closed. -/
def Session.dimensions (s : Session) : Except SlideErr (Nat × Nat) :=
  if s.closed then .error .closed
  else .ok (s.geom.levelDims.getD 0 (0, 0))

/-- Modelled from the spec (section 3): `level_count`; fails when the
session is closed. -/
def Session.level_count (s : Session) : Except SlideErr Nat :=
  if s.closed then .error .closed
  else .ok s.geom.level_count

/-- Modelled from the spec (section 3): the metadata `properties` mapping;
fails when the session is closed. -/
def Session.properties (s : Session) : Except SlideErr (List (String × String)) :=
  if s.closed then .error .closed
  else .ok s.props

/-- Modelled from the spec (section 4.4): the `associated_images` accessor;
fails when the session is closed. -/
def Session.associated_images (s : Session) :
    Except SlideErr AssociatedImageTable :=
  if s.closed then .error .closed
  else .ok s.assoc

/-- Modelled from the spec (section 4.3): `convert_level0_to_level_native`,
`(floor(x / ds[level]), floor(y / ds[level]))`; fails when closed or when
the level is outside `[0, level_count)`. -/
def Session.convert_level0_to_level_native (s : Session) (x y level : Int) :
    Except SlideErr (Int × Int) :=
  if s.closed then .error .closed
  else if level < 0 ∨ (s.geom.level_count : Int) ≤ level then .error .invalidLevel
  else
    let d := s.geom.levelDownsamples.getD level.toNat 1
    .ok (⌊(x : ℚ) / d⌋, ⌊(y : ℚ) / d⌋)

/-- Modelled from the spec (section 4.3): `convert_level_native_to_level0`,
`(round(x * ds[level]), round(y * ds[level]))`; fails when closed or when
the level is outside `[0, level_count)`. -/
def Session.convert_level_native_to_level0 (s : Session) (x y level : Int) :
    Except SlideErr (Int × Int) :=
  if s.closed then .error .closed
  else if level < 0 ∨ (s.geom.level_count : Int) ≤ level then .error .invalidLevel
  else
    let d := s.geom.levelDownsamples.getD level.toNat 1
    .ok (round ((x : ℚ) * d), round ((y : ℚ) * d))

/-- Modelled from the spec (section 4.3): the greatest index `i < n` with
`P i`, or `0` when no index satisfies `P`.  Helper for best-level
selection. -/
def largestSat (P : Nat → Bool) : Nat → Nat
  | 0 => 0
  | n + 1 => if P n then n else largestSat P n

/-- Modelled from the spec (section 4.3): the level whose downsample is the
largest value not exceeding the target, or level 0 when the target is
smaller than every downsample. -/
def bestLevel (ds : List ℚ) (target : ℚ) : Nat :=
  largestSat (fun i => decide (ds.getD i 1 ≤ target)) ds.length

/-- Modelled from the spec (section 4.3): `get_best_level_for_downsample`;
fails when the session is closed. -/
def Session.get_best_level_for_downsample (s : Session) (target : ℚ) :
    Except SlideErr Nat :=
  if s.closed then .error .closed
  else .ok (bestLevel s.geom.levelDownsamples target)

/-- Modelled from the spec (section 6): the external pyramid decoder: a
`size.width` by `size.height` region decoded row by row from the
deterministic per-pixel RGB source, three bytes per pixel. -/
def decodeRegion (s : Session) (level : Nat) (origin : Int × Int)
    (w h : Nat) : Buffer :=
  (List.range h).flatMap fun r =>
    (List.range w).flatMap fun c =>
      let p := s.sample level (origin.1 + c) (origin.2 + r)
      [p.1, p.2.1, p.2.2]

/-- Modelled from the spec (section 4.5): `read_region(origin, level, size)`.
Checks in order: closed session, invalid level, non-positive size,
region exceeding the level extent (strictly); then consults the attached
cache when present (hit returns the cached buffer and marks it recent;
miss decodes, inserts and returns the fresh buffer) and decodes directly
when no cache is attached. -/
def Session.read_region (s : Session) (origin : Int × Int) (level : Int)
    (size : Int × Int) : Except SlideErr Buffer × Session :=
  if s.closed then (.error .closed, s)
  else if level < 0 ∨ (s.geom.level_count : Int) ≤ level then
    (.error .invalidLevel, s)
  else if size.1 ≤ 0 ∨ size.2 ≤ 0 then (.error .invalidSize, s)
  else
    let dims := s.geom.levelDims.getD level.toNat (0, 0)
    if (dims.1 : Int) < origin.1 + size.1 ∨ (dims.2 : Int) < origin.2 + size.2 then
      (.error .outOfBounds, s)
    else
      let buf := decodeRegion s level.toNat origin size.1.toNat size.2.toNat
      match s.cache with
      | none => (.ok buf, s)
      | some c =>
        let key : RegionKey := ⟨s.id, level.toNat, origin.1, origin.2, size.1, size.2⟩
        let pr := c.get key
        match pr.1 with
        | some v => (.ok v, { s with cache := some pr.2 })
        | none => (.ok buf, { s with cache := some (pr.2.put key buf) })

/-- Modelled from the spec (section 3): the hit counter of the attached
cache (0 when no cache is attached). -/
def Session.cacheHits (s : Session) : Nat :=
  match s.cache with
  | some c => c.hits
  | none => 0

/-- Modelled from the spec (sections 3 and 9): scoped acquisition
(context-manager use): run the body on the session and close the resulting
session on every exit path, whether the body produced a value or an
error. -/
def withSlide {ε β : Type} (s : Session)
    (body : Session → Except ε β × Session) : Except ε β × Session :=
  let r := body s
  (r.1, r.2.close)

/-- Modelled from the spec (section 4.5): well-formedness of an attached
cache: every cached buffer has exactly the `h * w * 3` bytes promised for
its key (all entries were produced by the decoder contract). -/
def CacheWellFormed (c : CacheManager) : Prop :=
  ∀ e ∈ c.entries, e.2.length = e.1.h.toNat * e.1.w.toNat * 3

/-- Concrete associated-image table used to evaluate the model on explicit
inputs. -/
def sampleTable : AssociatedImageTable :=
  { names := ["thumbnail", "label"],
    dims := [("thumbnail", (20, 10)), ("label", (8, 8))],
    decodeImg := fun n => List.replicate (3 * n.length) 7,
    loaded := [] }

/-- Concrete three-level pyramid geometry with integer downsamples. -/
def sampleGeometry : Geometry :=
  { levelDims := [(100, 80), (50, 40), (25, 20)],
    levelDownsamples := [1, 2, 4] }

/-- Concrete open session over `sampleGeometry`, without an attached
cache. -/
def sampleSession : Session :=
  { id := 0, sourcePath := "slide.qptiff", format := "qptiff", closed := false,
    geom := sampleGeometry,
    props := [("mpp_x", "0.25"), ("mpp_y", "0.25"), ("source_path", "slide.qptiff")],
    sample := fun _ x y => ((x + y).toNat % 256, 0, 0),
    cache := none, assoc := sampleTable }

/-- Concrete open session with an attached empty cache of capacity 10. -/
def cachedSession : Session :=
  let c : CacheManager :=
    { capacity := 10, entries := [], hits := 0, misses := 0,
      recentKeys := [], keyFrequencies := [] }
  { sampleSession with cache := some c }

/-- Concrete open session whose level-1 downsample is the fraction 9/5. -/
def fractionalSession : Session :=
  let g : Geometry :=
    { levelDims := [(100, 100), (56, 55)], levelDownsamples := [1, 9/5] }
  { sampleSession with geom := g }

/-- Claim C10: `CacheManager.create()` called with no capacity argument
succeeds and returns a cache whose basic stats report capacity 1000, size 0,
hits 0, misses 0 and hit ratio 0.0 (the default capacity 1000 applies to any
cache, not only the global registry's instance). -/
theorem claim_C10_default_capacity :
    ∃ c, CacheManager.createDefault = .ok c ∧
      c.get_basic_stats =
        { capacity := 1000, size := 0, hits := 0, misses := 0, hit_ratio := 0 } :=
  ⟨_, rfl, rfl⟩

/-- Claim C6 counterexample: at the concrete capacity `-1`, `create` fails
with the distinct `InvalidArgumentType` kind (a `TypeError` at the outer
boundary), not with `InvalidCapacity` carrying the message
"Cache capacity must be greater than 0" as the claim states for every
`c ≤ 0`. -/
theorem claim_C6_counterexample :
    CacheManager.create (-1) = .error .invalidArgumentType ∧
    CacheManager.create (-1) ≠
      .error (.invalidCapacity "Cache capacity must be greater than 0") := by
  refine ⟨rfl, ?_⟩
  rw [show CacheManager.create (-1) = .error .invalidArgumentType from rfl]
  intro h
  simp at h

/-- Claim C6 (amended): for capacity 0, `create` and `resize` fail with
`InvalidCapacity` (message "Cache capacity must be greater than 0"); for
every negative capacity, `create`, `resize` and the global registry's
`set_capacity` fail with the distinct `InvalidArgumentType` error kind (a
`TypeError` at the outer boundary). -/
theorem claim_C6_capacity_validation (cap : Int) (c : CacheManager)
    (g : RuntimeGlobalCacheManager) :
    (cap = 0 →
      CacheManager.create cap =
        .error (.invalidCapacity "Cache capacity must be greater than 0") ∧
      c.resize cap =
        .error (.invalidCapacity "Cache capacity must be greater than 0")) ∧
    (cap < 0 →
      CacheManager.create cap = .error .invalidArgumentType ∧
      c.resize cap = .error .invalidArgumentType ∧
      g.set_capacity cap = .error .invalidArgumentType) := by
  constructor
  · rintro rfl
    exact ⟨rfl, rfl⟩
  · intro h
    refine ⟨?_, ?_, ?_⟩
    · simp [CacheManager.create, h]
    · simp [CacheManager.resize, h]
    · simp [RuntimeGlobalCacheManager.set_capacity, CacheManager.resize, h]

/-- Claim C6 witness: the amended validation behaviour at the concrete
capacities 0 and -1, on the global registry's freshly initialized cache. -/
theorem claim_C6_capacity_validation_witness :
    CacheManager.create 0 =
      .error (.invalidCapacity "Cache capacity must be greater than 0") ∧
    RuntimeGlobalCacheManager.init.cache.resize 0 =
      .error (.invalidCapacity "Cache capacity must be greater than 0") ∧
    CacheManager.create (-1) = .error .invalidArgumentType ∧
    RuntimeGlobalCacheManager.init.cache.resize (-1) = .error .invalidArgumentType ∧
    RuntimeGlobalCacheManager.init.set_capacity (-1) = .error .invalidArgumentType := by
  obtain ⟨h1, _⟩ := claim_C6_capacity_validation 0
    RuntimeGlobalCacheManager.init.cache RuntimeGlobalCacheManager.init
  obtain ⟨_, h4⟩ := claim_C6_capacity_validation (-1)
    RuntimeGlobalCacheManager.init.cache RuntimeGlobalCacheManager.init
  obtain ⟨ha, hb⟩ := h1 rfl
  obtain ⟨hc, hd, he⟩ := h4 (by decide)
  exact ⟨ha, hb, hc, hd, he⟩

/-- Helper: the result of `largestSat` stays below the bound when the bound
is positive. -/
theorem largestSat_lt (P : Nat → Bool) (n : Nat) (hn : 0 < n) :
    largestSat P n < n := by
  induction n with
  | zero => exact absurd hn (lt_irrefl 0)
  | succ m ih =>
    unfold largestSat
    by_cases h : P m = true
    · rw [if_pos h]; exact Nat.lt_succ_self m
    · rw [if_neg h]
      rcases Nat.eq_zero_or_pos m with hm | hm
      · subst hm; exact Nat.lt_succ_self 0
      · exact Nat.lt_succ_of_lt (ih hm)

/-- Helper: when some index below the bound satisfies the predicate,
`largestSat` returns a satisfying index at least as large as it. -/
theorem largestSat_spec (P : Nat → Bool) (n i : Nat) (hi : i < n)
    (hPi : P i = true) : P (largestSat P n) = true ∧ i ≤ largestSat P n := by
  induction n with
  | zero => exact absurd hi (Nat.not_lt_zero i)
  | succ m ih =>
    unfold largestSat
    by_cases h : P m = true
    · rw [if_pos h]; exact ⟨h, Nat.lt_succ_iff.mp hi⟩
    · rw [if_neg h]
      have him : i < m := by
        rcases Nat.lt_succ_iff_lt_or_eq.mp hi with h1 | h1
        · exact h1
        · subst h1; exact absurd hPi h
      exact ih him

/-- Helper: when no index below the bound satisfies the predicate,
`largestSat` returns 0. -/
theorem largestSat_zero (P : Nat → Bool) (n : Nat)
    (h : ∀ i, i < n → P i = false) : largestSat P n = 0 := by
  induction n with
  | zero => rfl
  | succ m ih =>
    unfold largestSat
    rw [if_neg (by simp [h m (Nat.lt_succ_self m)])]
    exact ih (fun i hi => h i (Nat.lt_succ_of_lt hi))

/-- Helper: in a list that is pairwise non-decreasing, `getD` values are
monotone in the index as long as the larger index is in range. -/
theorem pairwise_getD_mono (l : List ℚ) (hp : l.Pairwise (· ≤ ·)) (i j : Nat)
    (hij : i ≤ j) (hj : j < l.length) : l.getD i 1 ≤ l.getD j 1 := by
  rcases Nat.lt_or_eq_of_le hij with h | h
  · have hi : i < l.length := lt_trans h hj
    rw [List.getD_eq_getElem l 1 hi, List.getD_eq_getElem l 1 hj]
    exact List.pairwise_iff_getElem.mp hp i j hi hj h
  · subst h; exact le_refl _

/-- Claim C3: for every open session, every valid level and all non-negative
integers x, y, `convert_level_native_to_level0(x, y, level)` returns
`(round(x * level_downsamples[level]), round(y * level_downsamples[level]))`
and is the identity when `level = 0`. -/
theorem claim_C3_native_to_level0 (s : Session) (x y level : Int)
    (hval : s.geom.Valid) (hopen : s.closed = false)
    (h0 : 0 ≤ level) (hlt : level < (s.geom.level_count : Int))
    (hx : 0 ≤ x) (hy : 0 ≤ y) :
    s.convert_level_native_to_level0 x y level =
      .ok (round ((x : ℚ) * s.geom.levelDownsamples.getD level.toNat 1),
           round ((y : ℚ) * s.geom.levelDownsamples.getD level.toNat 1)) ∧
    (level = 0 → s.convert_level_native_to_level0 x y level = .ok (x, y)) := by
  have hguard : ¬(level < 0 ∨ (s.geom.level_count : Int) ≤ level) := by
    push_neg
    exact ⟨h0, hlt⟩
  have hmain : s.convert_level_native_to_level0 x y level =
      .ok (round ((x : ℚ) * s.geom.levelDownsamples.getD level.toNat 1),
           round ((y : ℚ) * s.geom.levelDownsamples.getD level.toNat 1)) := by
    unfold Session.convert_level_native_to_level0
    rw [if_neg (by simp [hopen]), if_neg hguard]
  refine ⟨hmain, ?_⟩
  rintro rfl
  rw [hmain]
  have hds : s.geom.levelDownsamples.getD (0 : Int).toNat 1 = 1 := hval.2.2.1
  rw [hds, mul_one, mul_one, round_intCast, round_intCast]

/-- Claim C3 witness: the conversion evaluated on the concrete sample
session at level 1 (downsample 2) and at level 0 (identity). -/
theorem claim_C3_native_to_level0_witness :
    sampleSession.convert_level_native_to_level0 500 600 1 = .ok (1000, 1200) ∧
    sampleSession.convert_level_native_to_level0 500 600 0 = .ok (500, 600) := by
  obtain ⟨h1, _⟩ := claim_C3_native_to_level0 sampleSession 500 600 1
    (by decide) rfl (by decide) (by decide) (by decide) (by decide)
  obtain ⟨_, h2⟩ := claim_C3_native_to_level0 sampleSession 500 600 0
    (by decide) rfl (by decide) (by decide) (by decide) (by decide)
  refine ⟨?_, h2 rfl⟩
  rw [h1]
  have hds : sampleSession.geom.levelDownsamples.getD (1 : Int).toNat 1 = 2 := rfl
  rw [hds]
  norm_num [round_eq]

/-- Claim C5 counterexample: at the concrete positive target 1/4 on the
sample session, selection returns level 0 whose downsample 1 violates the
claimed sanity bound `level_downsamples[L] ≤ target * 2`
(1 is not at most 1/2). -/
theorem claim_C5_counterexample :
    sampleSession.geom.Valid ∧ sampleSession.closed = false ∧
    sampleSession.get_best_level_for_downsample (1/4) = .ok 0 ∧
    (0 : ℚ) < 1/4 ∧
    ¬ (sampleSession.geom.levelDownsamples.getD 0 1 ≤ (1/4 : ℚ) * 2) := by
  refine ⟨by decide, rfl, ?_, by norm_num, ?_⟩
  · unfold Session.get_best_level_for_downsample
    rw [if_neg (by decide)]
    have hz : bestLevel sampleSession.geom.levelDownsamples (1/4) = 0 := by
      unfold bestLevel
      apply largestSat_zero
      intro i hi
      apply decide_eq_false
      have hds : sampleSession.geom.levelDownsamples = [1, 2, 4] := rfl
      have hi3 : i < 3 := by simpa [hds] using hi
      rw [hds]
      interval_cases i <;> norm_num [List.getD]
    rw [hz]
  · have hds : sampleSession.geom.levelDownsamples.getD 0 1 = 1 := rfl
    rw [hds]
    norm_num

/-- Claim C5 (amended): for every open session with valid geometry and every
positive target, `get_best_level_for_downsample` returns a level L in
`[0, level_count)`; when some level's downsample is at most the target, L's
downsample is the largest such value; when the target is smaller than every
downsample, L is 0; when the target is at least every downsample (in
particular when it exceeds the maximum), L is the coarsest level; and the
sanity bound `level_downsamples[L] ≤ target * 2` holds for every target at
least 1/2 (it fails for smaller targets, see the counterexample). -/
theorem claim_C5_best_level (s : Session) (t : ℚ) (hval : s.geom.Valid)
    (hopen : s.closed = false) (ht : 0 < t) :
    ∃ L, s.get_best_level_for_downsample t = .ok L ∧
      L < s.geom.level_count ∧
      ((∃ i, i < s.geom.level_count ∧ s.geom.levelDownsamples.getD i 1 ≤ t) →
        (s.geom.levelDownsamples.getD L 1 ≤ t ∧
         ∀ i, i < s.geom.level_count → s.geom.levelDownsamples.getD i 1 ≤ t →
           s.geom.levelDownsamples.getD i 1 ≤ s.geom.levelDownsamples.getD L 1)) ∧
      ((∀ i, i < s.geom.level_count → t < s.geom.levelDownsamples.getD i 1) →
        L = 0) ∧
      ((∀ i, i < s.geom.level_count → s.geom.levelDownsamples.getD i 1 ≤ t) →
        L = s.geom.level_count - 1) ∧
      (1/2 ≤ t → s.geom.levelDownsamples.getD L 1 ≤ t * 2) := by
  obtain ⟨hlen, hone, hds0, hpair, hdspos, hdims⟩ := hval
  have hcount : s.geom.level_count = s.geom.levelDownsamples.length := hlen.symm
  have hnpos : 0 < s.geom.levelDownsamples.length := by
    rw [hlen]; exact hone
  refine ⟨bestLevel s.geom.levelDownsamples t, ?_, ?_, ?_, ?_, ?_, ?_⟩
  · unfold Session.get_best_level_for_downsample
    rw [if_neg (by simp [hopen])]
  · rw [hcount]
    exact largestSat_lt _ _ hnpos
  · rintro ⟨i, hi, hile⟩
    rw [hcount] at hi
    obtain ⟨hPL, _⟩ := largestSat_spec
      (fun j => decide (s.geom.levelDownsamples.getD j 1 ≤ t)) _ i hi
      (decide_eq_true hile)
    have hLle : s.geom.levelDownsamples.getD (bestLevel s.geom.levelDownsamples t) 1 ≤ t :=
      of_decide_eq_true hPL
    refine ⟨hLle, ?_⟩
    intro j hj hjle
    rw [hcount] at hj
    obtain ⟨_, hjL⟩ := largestSat_spec
      (fun m => decide (s.geom.levelDownsamples.getD m 1 ≤ t)) _ j hj
      (decide_eq_true hjle)
    exact pairwise_getD_mono _ hpair j _ hjL (largestSat_lt _ _ hnpos)
  · intro h
    apply largestSat_zero
    intro i hi
    apply decide_eq_false
    rw [← hcount] at hi
    exact not_le.mpr (h i hi)
  · intro h
    have hlast : s.geom.levelDownsamples.length - 1 < s.geom.levelDownsamples.length := by
      omega
    have hPlast : decide
        (s.geom.levelDownsamples.getD (s.geom.levelDownsamples.length - 1) 1 ≤ t) = true := by
      apply decide_eq_true
      apply h
      rw [hcount]
      exact hlast
    obtain ⟨_, hge⟩ := largestSat_spec
      (fun m => decide (s.geom.levelDownsamples.getD m 1 ≤ t)) _ _ hlast hPlast
    have hLlt : bestLevel s.geom.levelDownsamples t < s.geom.levelDownsamples.length :=
      largestSat_lt _ _ hnpos
    have hbd : bestLevel s.geom.levelDownsamples t =
        largestSat (fun m => decide (s.geom.levelDownsamples.getD m 1 ≤ t))
          s.geom.levelDownsamples.length := rfl
    rw [hcount, hbd]
    rw [hbd] at hLlt
    omega
  · intro ht2
    by_cases hex : ∃ i, i < s.geom.levelDownsamples.length ∧
        s.geom.levelDownsamples.getD i 1 ≤ t
    · obtain ⟨i, hi, hile⟩ := hex
      obtain ⟨hPL, _⟩ := largestSat_spec
        (fun j => decide (s.geom.levelDownsamples.getD j 1 ≤ t)) _ i hi
        (decide_eq_true hile)
      have hLle : s.geom.levelDownsamples.getD (bestLevel s.geom.levelDownsamples t) 1 ≤ t :=
        of_decide_eq_true hPL
      nlinarith
    · push_neg at hex
      have hz : bestLevel s.geom.levelDownsamples t = 0 := by
        apply largestSat_zero
        intro i hi
        exact decide_eq_false (not_le.mpr (hex i hi))
      rw [hz, hds0]
      linarith

/-- Claim C5 witness: on the sample session (downsamples 1, 2, 4) with the
concrete target 3, the selected level is 1 and the sanity bound holds. -/
theorem claim_C5_best_level_witness :
    sampleSession.get_best_level_for_downsample 3 = .ok 1 ∧
    sampleSession.geom.levelDownsamples.getD 1 1 ≤ (3 : ℚ) * 2 := by
  obtain ⟨L, hok, hrest⟩ :=
    claim_C5_best_level sampleSession 3 (by decide) rfl (by decide)
  have hval : sampleSession.get_best_level_for_downsample 3 = .ok 1 := by
    unfold Session.get_best_level_for_downsample
    rw [if_neg (by decide)]
    rfl
  have hL : L = 1 := by
    have := hok.symm.trans hval
    exact Except.ok.inj this
  subst hL
  obtain ⟨_, _, _, _, hbound⟩ := hrest
  exact ⟨hval, hbound (by norm_num)⟩

/-- Helper: for a downsample of at least 1, converting a coordinate to the
level-native grid by flooring and back by rounding never overshoots and
undershoots by at most `floor(downsample) + 1`. -/
theorem roundtrip_le (d : ℚ) (hd : 1 ≤ d) (x : ℤ) :
    round ((⌊(x : ℚ) / d⌋ : ℚ) * d) ≤ x ∧
    x - round ((⌊(x : ℚ) / d⌋ : ℚ) * d) ≤ ⌊d⌋ + 1 := by
  have hd0 : (0 : ℚ) < d := lt_of_lt_of_le one_pos hd
  set n : ℤ := ⌊(x : ℚ) / d⌋ with hn
  have h1 : (n : ℚ) * d ≤ x := by
    have hf := Int.floor_le ((x : ℚ) / d)
    calc (n : ℚ) * d ≤ ((x : ℚ) / d) * d :=
          mul_le_mul_of_nonneg_right hf (le_of_lt hd0)
    _ = x := div_mul_cancel₀ _ (ne_of_gt hd0)
  have h2 : (x : ℚ) - d < (n : ℚ) * d := by
    have hf := Int.sub_one_lt_floor ((x : ℚ) / d)
    have hm : ((x : ℚ) / d - 1) * d < (n : ℚ) * d :=
      mul_lt_mul_of_pos_right hf hd0
    calc (x : ℚ) - d = ((x : ℚ) / d - 1) * d := by field_simp
    _ < (n : ℚ) * d := hm
  have hfl : (d : ℚ) < (⌊d⌋ : ℚ) + 1 := Int.lt_floor_add_one d
  constructor
  · rw [round_eq]
    have hx1 : (n : ℚ) * d + 1 / 2 < ((x + 1 : ℤ) : ℚ) := by
      push_cast
      linarith
    have := Int.floor_lt.mpr hx1
    omega
  · rw [round_eq]
    have hle : ((x - ⌊d⌋ - 1 : ℤ) : ℚ) ≤ (n : ℚ) * d + 1 / 2 := by
      push_cast
      linarith
    have := Int.le_floor.mpr hle
    omega

/-- Claim C4 counterexample: on a valid session whose level-1 downsample is
9/5, the round trip at (7, 7) returns (5, 5), which is off by 2 while the
claimed tolerance `max(1, floor(9/5))` is 1. -/
theorem claim_C4_counterexample :
    fractionalSession.geom.Valid ∧ fractionalSession.closed = false ∧
    fractionalSession.convert_level0_to_level_native 7 7 1 = .ok (3, 3) ∧
    fractionalSession.convert_level_native_to_level0 3 3 1 = .ok (5, 5) ∧
    ¬ (|(7 : Int) - 5| ≤
        max 1 ⌊fractionalSession.geom.levelDownsamples.getD 1 1⌋) := by
  have hds : fractionalSession.geom.levelDownsamples.getD 1 1 = 9/5 := by
    norm_num [fractionalSession, List.getD]
  have hvalid : fractionalSession.geom.Valid := by
    refine ⟨rfl, by decide, rfl, ?_, ?_, by decide⟩
    · simp [List.pairwise_cons, fractionalSession]
      norm_num
    · intro d hd
      simp [fractionalSession] at hd
      rcases hd with h | h <;> rw [h] <;> norm_num
  refine ⟨hvalid, rfl, ?_, ?_, ?_⟩
  · unfold Session.convert_level0_to_level_native
    rw [if_neg (by decide), if_neg (by decide)]
    rw [show fractionalSession.geom.levelDownsamples.getD (1 : Int).toNat 1 = 9/5 from hds]
    norm_num
  · unfold Session.convert_level_native_to_level0
    rw [if_neg (by decide), if_neg (by decide)]
    rw [show fractionalSession.geom.levelDownsamples.getD (1 : Int).toNat 1 = 9/5 from hds]
    norm_num [round_eq]
  · rw [hds]
    have hfl : ⌊(9/5 : ℚ)⌋ = 1 := by norm_num
    rw [hfl]
    decide

/-- Claim C4 (amended): for every open session with valid geometry, every
valid level L and all non-negative integers x, y, the round trip
level-0 to level-native to level-0 returns coordinates within
`max(1, floor(level_downsamples[L])) + 1` of (x, y) in each axis (the
tolerance claimed without the `+ 1` fails for fractional downsamples, see
the counterexample). -/
theorem claim_C4_roundtrip (s : Session) (x y level : Int)
    (hval : s.geom.Valid) (hopen : s.closed = false)
    (h0 : 0 ≤ level) (hlt : level < (s.geom.level_count : Int))
    (hx : 0 ≤ x) (hy : 0 ≤ y) :
    ∃ nx ny rx ry,
      s.convert_level0_to_level_native x y level = .ok (nx, ny) ∧
      s.convert_level_native_to_level0 nx ny level = .ok (rx, ry) ∧
      |x - rx| ≤ max 1 ⌊s.geom.levelDownsamples.getD level.toNat 1⌋ + 1 ∧
      |y - ry| ≤ max 1 ⌊s.geom.levelDownsamples.getD level.toNat 1⌋ + 1 := by
  obtain ⟨hlen, hone, hds0, hpair, hdspos, hdims⟩ := hval
  have hguard : ¬(level < 0 ∨ (s.geom.level_count : Int) ≤ level) := by
    push_neg
    exact ⟨h0, hlt⟩
  set d : ℚ := s.geom.levelDownsamples.getD level.toNat 1 with hd
  have hlev : level.toNat < s.geom.levelDownsamples.length := by
    rw [hlen]
    have : level < (s.geom.levelDims.length : Int) := hlt
    omega
  have hd1 : 1 ≤ d := by
    calc (1 : ℚ) = s.geom.levelDownsamples.getD 0 1 := hds0.symm
    _ ≤ d := pairwise_getD_mono _ hpair 0 level.toNat (Nat.zero_le _) hlev
  refine ⟨⌊(x : ℚ) / d⌋, ⌊(y : ℚ) / d⌋,
          round ((⌊(x : ℚ) / d⌋ : ℚ) * d), round ((⌊(y : ℚ) / d⌋ : ℚ) * d),
          ?_, ?_, ?_, ?_⟩
  · unfold Session.convert_level0_to_level_native
    rw [if_neg (by simp [hopen]), if_neg hguard]
  · unfold Session.convert_level_native_to_level0
    rw [if_neg (by simp [hopen]), if_neg hguard]
  · obtain ⟨hle, hbound⟩ := roundtrip_le d hd1 x
    have habs : |x - round ((⌊(x : ℚ) / d⌋ : ℚ) * d)| =
        x - round ((⌊(x : ℚ) / d⌋ : ℚ) * d) := abs_of_nonneg (by omega)
    rw [habs]
    have hmax : ⌊d⌋ ≤ max 1 ⌊d⌋ := le_max_right 1 ⌊d⌋
    omega
  · obtain ⟨hle, hbound⟩ := roundtrip_le d hd1 y
    have habs : |y - round ((⌊(y : ℚ) / d⌋ : ℚ) * d)| =
        y - round ((⌊(y : ℚ) / d⌋ : ℚ) * d) := abs_of_nonneg (by omega)
    rw [habs]
    have hmax : ⌊d⌋ ≤ max 1 ⌊d⌋ := le_max_right 1 ⌊d⌋
    omega

/-- Claim C4 witness: the amended round-trip tolerance holds on the sample
session at level 1 with the concrete coordinates (9, 9). -/
theorem claim_C4_roundtrip_witness :
    ∃ nx ny rx ry,
      sampleSession.convert_level0_to_level_native 9 9 1 = .ok (nx, ny) ∧
      sampleSession.convert_level_native_to_level0 nx ny 1 = .ok (rx, ry) ∧
      |(9 : Int) - rx| ≤
        max 1 ⌊sampleSession.geom.levelDownsamples.getD (1 : Int).toNat 1⌋ + 1 ∧
      |(9 : Int) - ry| ≤
        max 1 ⌊sampleSession.geom.levelDownsamples.getD (1 : Int).toNat 1⌋ + 1 :=
  claim_C4_roundtrip sampleSession 9 9 1 (by decide) rfl (by decide) (by decide)
    (by decide) (by decide)

/-- Claim C8: the closed flag is monotone (close sets it, read_region never
changes it, close is idempotent and raises nothing); once closed, every
operation (dimensions, level_count, properties, read_region, both
coordinate conversions, associated_images) fails with the closed error; and
scoped use closes the session on every exit path, value or error. -/
theorem claim_C8_lifecycle :
    (∀ s : Session, (s.close).closed = true) ∧
    (∀ s : Session, (s.close).close = s.close) ∧
    (∀ (s : Session) (o : Int × Int) (l : Int) (z : Int × Int),
       ((s.read_region o l z).2).closed = s.closed) ∧
    (∀ s : Session, (s.close).dimensions = .error .closed) ∧
    (∀ s : Session, (s.close).level_count = .error .closed) ∧
    (∀ s : Session, (s.close).properties = .error .closed) ∧
    (∀ (s : Session) (o : Int × Int) (l : Int) (z : Int × Int),
       (s.close).read_region o l z = (.error .closed, s.close)) ∧
    (∀ (s : Session) (x y l : Int),
       (s.close).convert_level0_to_level_native x y l = .error .closed) ∧
    (∀ (s : Session) (x y l : Int),
       (s.close).convert_level_native_to_level0 x y l = .error .closed) ∧
    (∀ s : Session, (s.close).associated_images = .error .closed) ∧
    (∀ (ε β : Type) (s : Session) (body : Session → Except ε β × Session),
       ((withSlide s body).2).closed = true) := by
  refine ⟨fun s => rfl, fun s => rfl, ?_, fun s => rfl, fun s => rfl, fun s => rfl,
          fun s o l z => rfl, fun s x y l => rfl, fun s x y l => rfl,
          fun s => rfl, fun ε β s body => rfl⟩
  intro s o l z
  simp only [Session.read_region]
  repeat' split <;> try rfl

/-- Claim C1: `read_region` fails with the closed error on a closed session;
with the invalid-level error for every level outside `[0, level_count)`
(negative or past the last); with the out-of-bounds error when origin plus
size exceeds the level dimensions in either axis (for an otherwise valid
request); and with the size validation error when either size component is
non-positive. -/
theorem claim_C1_read_region_errors :
    (∀ (s : Session) (o : Int × Int) (l : Int) (z : Int × Int),
       s.closed = true → s.read_region o l z = (.error .closed, s)) ∧
    (∀ (s : Session) (o : Int × Int) (l : Int) (z : Int × Int),
       s.closed = false → (l < 0 ∨ (s.geom.level_count : Int) ≤ l) →
       s.read_region o l z = (.error .invalidLevel, s)) ∧
    (∀ (s : Session) (o : Int × Int) (l : Int) (z : Int × Int),
       s.closed = false → 0 ≤ l → l < (s.geom.level_count : Int) →
       0 < z.1 → 0 < z.2 →
       (((s.geom.levelDims.getD l.toNat (0, 0)).1 : Int) < o.1 + z.1 ∨
        ((s.geom.levelDims.getD l.toNat (0, 0)).2 : Int) < o.2 + z.2) →
       s.read_region o l z = (.error .outOfBounds, s)) ∧
    (∀ (s : Session) (o : Int × Int) (l : Int) (z : Int × Int),
       s.closed = false → 0 ≤ l → l < (s.geom.level_count : Int) →
       (z.1 ≤ 0 ∨ z.2 ≤ 0) →
       s.read_region o l z = (.error .invalidSize, s)) := by
  refine ⟨?_, ?_, ?_, ?_⟩
  · intro s o l z h
    unfold Session.read_region
    rw [if_pos h]
  · intro s o l z hop hlev
    unfold Session.read_region
    rw [if_neg (by simp [hop]), if_pos hlev]
  · intro s o l z hop h0 hlt hw hh hbound
    simp only [Session.read_region]
    rw [if_neg (by simp [hop]),
        if_neg (by push_neg; exact ⟨h0, hlt⟩),
        if_neg (by push_neg; exact ⟨hw, hh⟩),
        if_pos hbound]
  · intro s o l z hop h0 hlt hsz
    unfold Session.read_region
    rw [if_neg (by simp [hop]), if_neg (by push_neg; exact ⟨h0, hlt⟩),
        if_pos hsz]

/-- Claim C1 witness: the four failure modes evaluated on the concrete
sample session (level-0 extent 100 by 80): a closed session, levels 5 and
-1, an origin whose region overruns the right edge, and zero or negative
sizes. -/
theorem claim_C1_read_region_errors_witness :
    (sampleSession.close).read_region (0, 0) 0 (256, 256) =
      (.error .closed, sampleSession.close) ∧
    sampleSession.read_region (0, 0) 5 (256, 256) =
      (.error .invalidLevel, sampleSession) ∧
    sampleSession.read_region (0, 0) (-1) (256, 256) =
      (.error .invalidLevel, sampleSession) ∧
    sampleSession.read_region (90, 0) 0 (20, 20) =
      (.error .outOfBounds, sampleSession) ∧
    sampleSession.read_region (0, 0) 0 (0, 256) =
      (.error .invalidSize, sampleSession) ∧
    sampleSession.read_region (0, 0) 0 (-256, 256) =
      (.error .invalidSize, sampleSession) := by
  obtain ⟨h1, h2, h3, h4⟩ := claim_C1_read_region_errors
  exact ⟨h1 _ _ _ _ rfl,
         h2 _ _ _ _ rfl (by decide),
         h2 _ _ _ _ rfl (by decide),
         h3 _ _ _ _ rfl (by decide) (by decide) (by decide) (by decide) (by decide),
         h4 _ _ _ _ rfl (by decide) (by decide) (by decide),
         h4 _ _ _ _ rfl (by decide) (by decide) (by decide)⟩

/-- Helper: the length of a flat map whose pieces all have the same
length. -/
theorem length_flatMap_const {α β : Type} (l : List α) (f : α → List β)
    (k : Nat) (h : ∀ a ∈ l, (f a).length = k) :
    (l.flatMap f).length = l.length * k := by
  induction l with
  | nil => simp
  | cons a t ih =>
    rw [List.flatMap_cons, List.length_append, h a (List.mem_cons_self a t),
        ih (fun b hb => h b (List.mem_cons_of_mem a hb)), List.length_cons]
    ring

/-- Helper: the decoder returns exactly `h * w * 3` bytes. -/
theorem decodeRegion_length (s : Session) (level : Nat) (origin : Int × Int)
    (w h : Nat) : (decodeRegion s level origin w h).length = h * w * 3 := by
  unfold decodeRegion
  rw [length_flatMap_const _ _ (w * 3), List.length_range]
  · ring
  · intro r hr
    rw [length_flatMap_const _ _ 3, List.length_range]
    intro c hc
    rfl

/-- Helper: a successful cache probe returns the value of an entry stored
for that key. -/
theorem cacheGet_some_mem (c : CacheManager) (k : RegionKey) (v : Buffer)
    (h : (c.get k).1 = some v) : ∃ e ∈ c.entries, e.1 = k ∧ e.2 = v := by
  unfold CacheManager.get at h
  rcases hf : c.entries.find? (fun e => decide (e.1 = k)) with _ | e
  · rw [hf] at h
    simp at h
  · rw [hf] at h
    simp at h
    have hp := List.find?_some hf
    simp only [decide_eq_true_eq] at hp
    exact ⟨e, List.mem_of_find?_eq_some hf, hp, h⟩

/-- Helper: on an open session with valid request and no attached cache,
`read_region` decodes directly and leaves the session unchanged. -/
theorem read_region_uncached (s : Session) (o : Int × Int) (l : Int)
    (z : Int × Int)
    (hopen : s.closed = false) (h0 : 0 ≤ l)
    (hlt : l < (s.geom.level_count : Int))
    (hw : 0 < z.1) (hh : 0 < z.2)
    (hbx : o.1 + z.1 ≤ ((s.geom.levelDims.getD l.toNat (0, 0)).1 : Int))
    (hby : o.2 + z.2 ≤ ((s.geom.levelDims.getD l.toNat (0, 0)).2 : Int))
    (hc : s.cache = none) :
    s.read_region o l z =
      (.ok (decodeRegion s l.toNat o z.1.toNat z.2.toNat), s) := by
  simp only [Session.read_region]
  rw [if_neg (by simp [hopen]),
      if_neg (by push_neg; exact ⟨h0, hlt⟩),
      if_neg (by push_neg; exact ⟨hw, hh⟩),
      if_neg (by push_neg; exact ⟨hbx, hby⟩),
      hc]

/-- Helper: on an open session with valid request and attached cache c,
`read_region` probes c with the session's region key and either returns the
hit or decodes, inserts and returns the fresh buffer. -/
theorem read_region_cached (s : Session) (o : Int × Int) (l : Int)
    (z : Int × Int) (c : CacheManager)
    (hopen : s.closed = false) (h0 : 0 ≤ l)
    (hlt : l < (s.geom.level_count : Int))
    (hw : 0 < z.1) (hh : 0 < z.2)
    (hbx : o.1 + z.1 ≤ ((s.geom.levelDims.getD l.toNat (0, 0)).1 : Int))
    (hby : o.2 + z.2 ≤ ((s.geom.levelDims.getD l.toNat (0, 0)).2 : Int))
    (hc : s.cache = some c) :
    s.read_region o l z =
      match (c.get ⟨s.id, l.toNat, o.1, o.2, z.1, z.2⟩).1 with
      | some v =>
        (.ok v, { s with cache := some (c.get ⟨s.id, l.toNat, o.1, o.2, z.1, z.2⟩).2 })
      | none =>
        (.ok (decodeRegion s l.toNat o z.1.toNat z.2.toNat), { s with cache := some ((c.get ⟨s.id, l.toNat, o.1, o.2, z.1, z.2⟩).2.put ⟨s.id, l.toNat, o.1, o.2, z.1, z.2⟩ (decodeRegion s l.toNat o z.1.toNat z.2.toNat)) }) := by
  simp only [Session.read_region]
  rw [if_neg (by simp [hopen]),
      if_neg (by push_neg; exact ⟨h0, hlt⟩),
      if_neg (by push_neg; exact ⟨hw, hh⟩),
      if_neg (by push_neg; exact ⟨hbx, hby⟩),
      hc]

/-- Claim C9: `read_region` succeeds when origin plus size reaches the level
dimensions exactly (the bounds check rejects only strictly exceeding
regions), and the returned buffer holds exactly
`size.height * size.width * 3` bytes (for cached sessions this relies on
every cached entry obeying the decoder contract). -/
theorem claim_C9_exact_fit (s : Session) (o : Int × Int) (l : Int)
    (z : Int × Int)
    (hopen : s.closed = false) (h0 : 0 ≤ l)
    (hlt : l < (s.geom.level_count : Int))
    (hw : 0 < z.1) (hh : 0 < z.2)
    (hbx : o.1 + z.1 ≤ ((s.geom.levelDims.getD l.toNat (0, 0)).1 : Int))
    (hby : o.2 + z.2 ≤ ((s.geom.levelDims.getD l.toNat (0, 0)).2 : Int))
    (hwf : ∀ c, s.cache = some c → CacheWellFormed c) :
    ∃ buf, (s.read_region o l z).1 = .ok buf ∧
      buf.length = z.2.toNat * z.1.toNat * 3 := by
  rcases hcache : s.cache with _ | c
  · rw [read_region_uncached s o l z hopen h0 hlt hw hh hbx hby hcache]
    exact ⟨_, rfl, decodeRegion_length s l.toNat o z.1.toNat z.2.toNat⟩
  · rw [read_region_cached s o l z c hopen h0 hlt hw hh hbx hby hcache]
    rcases hg : (c.get ⟨s.id, l.toNat, o.1, o.2, z.1, z.2⟩).1 with _ | v
    · exact ⟨_, rfl, decodeRegion_length s l.toNat o z.1.toNat z.2.toNat⟩
    · refine ⟨v, rfl, ?_⟩
      obtain ⟨e, hmem, hkey, hval⟩ := cacheGet_some_mem _ _ _ hg
      have hlen := hwf c hcache e hmem
      rw [hkey, hval] at hlen
      exact hlen

/-- Claim C9 witness: an exact-fit read at the bottom-right corner of the
sample session's level 0 (extent 100 by 80): origin (98, 78) with size
(2, 2) succeeds and returns 12 bytes. -/
theorem claim_C9_exact_fit_witness :
    ∃ buf, (sampleSession.read_region (98, 78) 0 (2, 2)).1 = .ok buf ∧
      buf.length = 12 :=
  claim_C9_exact_fit sampleSession (98, 78) 0 (2, 2) rfl (by decide) (by decide)
    (by decide) (by decide) (by decide) (by decide)
    (fun c hc => nomatch hc)

/-- Helper: probing the cache for the key of its most recent entry hits,
returns that entry's value and increments `hits`. -/
theorem get_head (c : CacheManager) (k : RegionKey) (v : Buffer)
    (rest : List (RegionKey × Buffer)) (h : c.entries = (k, v) :: rest) :
    (c.get k).1 = some v ∧ (c.get k).2.hits = c.hits + 1 := by
  have hf : c.entries.find? (fun e => decide (e.1 = k)) = some (k, v) := by
    rw [h]
    exact List.find?_cons_of_pos _ (by simp)
  unfold CacheManager.get
  rw [hf]
  exact ⟨rfl, rfl⟩

/-- Helper: a cache miss only increments `misses`: entries, capacity and
hits are unchanged. -/
theorem get_miss (c : CacheManager) (k : RegionKey)
    (h : (c.get k).1 = none) :
    (c.get k).2.entries = c.entries ∧ (c.get k).2.capacity = c.capacity ∧
    (c.get k).2.hits = c.hits := by
  unfold CacheManager.get at h ⊢
  rcases hf : c.entries.find? (fun e => decide (e.1 = k)) with _ | e
  · rw [hf]
    exact ⟨rfl, rfl, rfl⟩
  · rw [hf] at h
    simp at h

/-- Helper: a cache hit keeps the hit entry at the most recent position and
preserves the capacity. -/
theorem get_hit_entries (c : CacheManager) (k : RegionKey) (v : Buffer)
    (h : (c.get k).1 = some v) :
    (c.get k).2.entries = (k, v) :: c.entries.eraseP (fun x => decide (x.1 = k)) ∧
    (c.get k).2.capacity = c.capacity := by
  unfold CacheManager.get at h ⊢
  rcases hf : c.entries.find? (fun e => decide (e.1 = k)) with _ | e
  · rw [hf] at h
    simp at h
  · rw [hf] at h ⊢
    simp at h
    subst h
    exact ⟨rfl, rfl⟩

/-- Helper: with positive capacity, `put` leaves the inserted entry at the
most recent position. -/
theorem put_entries_head (c : CacheManager) (k : RegionKey) (v : Buffer)
    (hcap : 0 < c.capacity) :
    (c.put k v).entries =
      (k, v) :: (c.entries.eraseP (fun x => decide (x.1 = k))).take (c.capacity - 1) := by
  unfold CacheManager.put
  rcases hcp : c.capacity with _ | n
  · rw [hcp] at hcap
    exact absurd hcap (lt_irrefl 0)
  · simp [hcp, List.take_succ_cons]

/-- Helper: a read on an open session whose attached cache holds the
request's key at the most recent position returns the cached buffer and
increments the cache's hit counter. -/
theorem read_region_second (s : Session) (o : Int × Int) (l : Int)
    (z : Int × Int) (c2 : CacheManager) (b1 : Buffer)
    (rest : List (RegionKey × Buffer))
    (hopen : s.closed = false) (h0 : 0 ≤ l)
    (hlt : l < (s.geom.level_count : Int))
    (hw : 0 < z.1) (hh : 0 < z.2)
    (hbx : o.1 + z.1 ≤ ((s.geom.levelDims.getD l.toNat (0, 0)).1 : Int))
    (hby : o.2 + z.2 ≤ ((s.geom.levelDims.getD l.toNat (0, 0)).2 : Int))
    (hc : s.cache = some c2)
    (hent : c2.entries = (⟨s.id, l.toNat, o.1, o.2, z.1, z.2⟩, b1) :: rest) :
    (s.read_region o l z).1 = .ok b1 ∧
    ((s.read_region o l z).2).cacheHits = c2.hits + 1 := by
  obtain ⟨hsome, hhits⟩ := get_head c2 _ b1 rest hent
  rw [read_region_cached s o l z c2 hopen h0 hlt hw hh hbx hby hc, hsome]
  exact ⟨rfl, hhits⟩

/-- Claim C2: on an open session with an attached cache of positive
capacity, when a read succeeds, an immediately repeated read with the
identical origin, level and size returns the pixel-identical buffer, and
the cache's hit counter after the second call is at least its value after
the first call. -/
theorem claim_C2_repeat_read (s : Session) (c : CacheManager) (o : Int × Int)
    (l : Int) (z : Int × Int) (b1 : Buffer)
    (hopen : s.closed = false) (hcache : s.cache = some c)
    (hcap : 0 < c.capacity)
    (h1 : (s.read_region o l z).1 = .ok b1) :
    (((s.read_region o l z).2).read_region o l z).1 = .ok b1 ∧
    ((s.read_region o l z).2).cacheHits ≤
      ((((s.read_region o l z).2).read_region o l z).2).cacheHits := by
  by_cases hlev : l < 0 ∨ (s.geom.level_count : Int) ≤ l
  · exfalso
    have hb : s.read_region o l z = (.error .invalidLevel, s) := by
      unfold Session.read_region
      rw [if_neg (by simp [hopen]), if_pos hlev]
    rw [hb] at h1
    exact Except.noConfusion h1
  push_neg at hlev
  obtain ⟨h0, hlt⟩ := hlev
  by_cases hsz : z.1 ≤ 0 ∨ z.2 ≤ 0
  · exfalso
    have hb : s.read_region o l z = (.error .invalidSize, s) := by
      unfold Session.read_region
      rw [if_neg (by simp [hopen]), if_neg (by push_neg; exact ⟨h0, hlt⟩),
          if_pos hsz]
    rw [hb] at h1
    exact Except.noConfusion h1
  push_neg at hsz
  obtain ⟨hw, hh⟩ := hsz
  by_cases hbounds : ((s.geom.levelDims.getD l.toNat (0, 0)).1 : Int) < o.1 + z.1 ∨
      ((s.geom.levelDims.getD l.toNat (0, 0)).2 : Int) < o.2 + z.2
  · exfalso
    have hb : s.read_region o l z = (.error .outOfBounds, s) := by
      simp only [Session.read_region]
      rw [if_neg (by simp [hopen]), if_neg (by push_neg; exact ⟨h0, hlt⟩),
          if_neg (by push_neg; exact ⟨hw, hh⟩), if_pos hbounds]
    rw [hb] at h1
    exact Except.noConfusion h1
  push_neg at hbounds
  obtain ⟨hbx, hby⟩ := hbounds
  rw [read_region_cached s o l z c hopen h0 hlt hw hh hbx hby hcache] at h1 ⊢
  rcases hg : (c.get ⟨s.id, l.toNat, o.1, o.2, z.1, z.2⟩).1 with _ | v
  · -- first call misses: the fresh buffer is inserted most recently
    rw [hg] at h1
    have hbuf : decodeRegion s l.toNat o z.1.toNat z.2.toNat = b1 :=
      Except.ok.inj h1
    obtain ⟨hent0, hcapeq, hhit0⟩ := get_miss c _ hg
    have hcap2 : 0 < ((c.get ⟨s.id, l.toNat, o.1, o.2, z.1, z.2⟩).2).capacity := by
      rw [hcapeq]
      exact hcap
    have hent : ((c.get ⟨s.id, l.toNat, o.1, o.2, z.1, z.2⟩).2.put
        ⟨s.id, l.toNat, o.1, o.2, z.1, z.2⟩
        (decodeRegion s l.toNat o z.1.toNat z.2.toNat)).entries =
        (⟨s.id, l.toNat, o.1, o.2, z.1, z.2⟩, b1) ::
          (((c.get ⟨s.id, l.toNat, o.1, o.2, z.1, z.2⟩).2.entries.eraseP
              (fun x => decide (x.1 = (⟨s.id, l.toNat, o.1, o.2, z.1, z.2⟩ : RegionKey)))).take
            ((c.get ⟨s.id, l.toNat, o.1, o.2, z.1, z.2⟩).2.capacity - 1)) := by
      rw [← hbuf]
      exact put_entries_head _ _ _ hcap2
    have h2 := read_region_second
      { s with cache := some ((c.get ⟨s.id, l.toNat, o.1, o.2, z.1, z.2⟩).2.put
          ⟨s.id, l.toNat, o.1, o.2, z.1, z.2⟩
          (decodeRegion s l.toNat o z.1.toNat z.2.toNat)) }
      o l z _ b1 _ hopen h0 hlt hw hh hbx hby rfl hent
    exact ⟨h2.1, le_of_le_of_eq (Nat.le_succ _) h2.2.symm⟩
  · -- first call hits: the entry stays at the most recent position
    rw [hg] at h1
    have hv : v = b1 := Except.ok.inj h1
    obtain ⟨hent0, hcapeq⟩ := get_hit_entries c _ v hg
    have hent : ((c.get ⟨s.id, l.toNat, o.1, o.2, z.1, z.2⟩).2).entries =
        (⟨s.id, l.toNat, o.1, o.2, z.1, z.2⟩, b1) ::
          (c.entries.eraseP
            (fun x => decide (x.1 = (⟨s.id, l.toNat, o.1, o.2, z.1, z.2⟩ : RegionKey)))) := by
      rw [← hv]
      exact hent0
    have h2 := read_region_second
      { s with cache := some (c.get ⟨s.id, l.toNat, o.1, o.2, z.1, z.2⟩).2 }
      o l z _ b1 _ hopen h0 hlt hw hh hbx hby rfl hent
    exact ⟨h2.1, le_of_le_of_eq (Nat.le_succ _) h2.2.symm⟩

/-- Claim C2 witness: two consecutive reads of the 2 by 2 region at the
origin of level 0 on the concrete cached session return the identical
explicit buffer, with the hit counter non-decreasing. -/
theorem claim_C2_repeat_read_witness :
    (((cachedSession.read_region (0, 0) 0 (2, 2)).2).read_region (0, 0) 0 (2, 2)).1 =
      .ok [0, 0, 0, 1, 0, 0, 1, 0, 0, 2, 0, 0] ∧
    ((cachedSession.read_region (0, 0) 0 (2, 2)).2).cacheHits ≤
      ((((cachedSession.read_region (0, 0) 0 (2, 2)).2).read_region (0, 0) 0 (2, 2)).2).cacheHits :=
  claim_C2_repeat_read cachedSession
    { capacity := 10, entries := [], hits := 0, misses := 0,
      recentKeys := [], keyFrequencies := [] }
    (0, 0) 0 (2, 2) [0, 0, 0, 1, 0, 0, 1, 0, 0, 2, 0, 0]
    rfl rfl (by decide) rfl

/-- Helper: indexed access on a memoized name returns the stored image and
leaves the table unchanged. -/
theorem getItem_found (t : AssociatedImageTable) (n : String)
    (e : String × Buffer) (hn : n ∈ t.names)
    (hf : t.loaded.find? (fun x => decide (x.1 = n)) = some e) :
    t.getItem n = (.ok e.2, t) := by
  unfold AssociatedImageTable.getItem
  rw [if_pos hn, hf]

/-- Helper: indexed access on a known but not yet memoized name decodes and
memoizes it at the front of `loaded`. -/
theorem getItem_notfound (t : AssociatedImageTable) (n : String)
    (hn : n ∈ t.names)
    (hf : t.loaded.find? (fun x => decide (x.1 = n)) = none) :
    t.getItem n =
      (.ok (t.decodeImg n), { t with loaded := (n, t.decodeImg n) :: t.loaded }) := by
  unfold AssociatedImageTable.getItem
  rw [if_pos hn, hf]

/-- Claim C7: `keys`, the membership test and `get_dimensions` are
independent of the decoded-image cache (so they never change
`get_cache_size`); indexed access on a newly-seen known name increases
`get_cache_size` by exactly 1 and returns the decode; a repeated indexed
access returns a value equal to the first one and leaves the table (hence
the cache size) unchanged; and `clear_cache` resets `get_cache_size` to
0. -/
theorem claim_C7_assoc_cache :
    (∀ (t : AssociatedImageTable) (img : List (String × Buffer)),
       ({ t with loaded := img } : AssociatedImageTable).keys = t.keys) ∧
    (∀ (t : AssociatedImageTable) (img : List (String × Buffer)) (n : String),
       ({ t with loaded := img } : AssociatedImageTable).containsName n =
         t.containsName n) ∧
    (∀ (t : AssociatedImageTable) (img : List (String × Buffer)) (n : String),
       ({ t with loaded := img } : AssociatedImageTable).get_dimensions n =
         t.get_dimensions n) ∧
    (∀ (t : AssociatedImageTable) (n : String),
       n ∈ t.names → t.loaded.find? (fun x => decide (x.1 = n)) = none →
       ((t.getItem n).2).get_cache_size = t.get_cache_size + 1 ∧
       (t.getItem n).1 = .ok (t.decodeImg n)) ∧
    (∀ (t : AssociatedImageTable) (n : String) (v : Buffer),
       (t.getItem n).1 = .ok v →
       ((t.getItem n).2).getItem n = (.ok v, (t.getItem n).2)) ∧
    (∀ t : AssociatedImageTable, (t.clear_cache).get_cache_size = 0) := by
  refine ⟨fun t img => rfl, fun t img n => rfl, fun t img n => rfl, ?_, ?_,
          fun t => rfl⟩
  · intro t n hn hf
    rw [getItem_notfound t n hn hf]
    exact ⟨rfl, rfl⟩
  · intro t n v h
    by_cases hn : n ∈ t.names
    · rcases hf : t.loaded.find? (fun x => decide (x.1 = n)) with _ | e
      · rw [getItem_notfound t n hn hf] at h
        have hv : t.decodeImg n = v := Except.ok.inj h
        rw [getItem_notfound t n hn hf]
        show ({ t with loaded := (n, t.decodeImg n) :: t.loaded } :
            AssociatedImageTable).getItem n =
          (.ok v, { t with loaded := (n, t.decodeImg n) :: t.loaded })
        have hf2 : ((n, t.decodeImg n) :: t.loaded).find?
            (fun x => decide (x.1 = n)) = some (n, t.decodeImg n) :=
          List.find?_cons_of_pos _ (by simp)
        rw [getItem_found { t with loaded := (n, t.decodeImg n) :: t.loaded } n
              (n, t.decodeImg n) hn hf2, hv]
      · rw [getItem_found t n e hn hf] at h
        have hv : e.2 = v := Except.ok.inj h
        rw [getItem_found t n e hn hf]
        show t.getItem n = (.ok v, t)
        rw [getItem_found t n e hn hf, hv]
    · exfalso
      have hbad : t.getItem n = (.error .notFound, t) := by
        unfold AssociatedImageTable.getItem
        rw [if_neg hn]
      rw [hbad] at h
      exact Except.noConfusion h

/-- Claim C7 witness: on the concrete sample table, loading the thumbnail
raises the cache size from 0 to 1 and returns the decode; repeating the
access returns the equal buffer and the unchanged table; clearing resets
the size to 0. -/
theorem claim_C7_assoc_cache_witness :
    ((sampleTable.getItem "thumbnail").2).get_cache_size =
      sampleTable.get_cache_size + 1 ∧
    ((sampleTable.getItem "thumbnail").2).getItem "thumbnail" =
      (.ok (List.replicate 27 7), (sampleTable.getItem "thumbnail").2) ∧
    (sampleTable.clear_cache).get_cache_size = 0 := by
  obtain ⟨h1, h2, h3, h4, h5, h6⟩ := claim_C7_assoc_cache
  exact ⟨(h4 sampleTable "thumbnail" (by decide) rfl).1,
         h5 sampleTable "thumbnail" (List.replicate 27 7) rfl,
         h6 sampleTable⟩
